import Mathlib

/-!
Verification of the stash-management core (`app/src/lib/git/stash.ts`).

The module is embedded shallowly.  The external `git` process is modelled by
an oracle `GitEnv` mapping the history of calls issued so far and the current
call to a process result (exit code, stdout, stderr).  Every operation threads
an explicit `Trace` recording the git calls issued and the log lines emitted,
so that statements about "which commands were run" and "what was logged" are
directly expressible.  Exceptions (`throw new GitError(...)`) are modelled by
`Except`.

Strings are processed on their underlying character lists.  The JavaScript
regular expression `!!GitHub_Desktop<(.+)>$` is modelled exactly: `.` matches
every character except the four ECMAScript line terminators, `(.+)` is greedy,
the pattern is anchored only at the end of the string, and `exec` returns the
match at the leftmost possible start position.
-/

/-- The four ECMAScript line terminators, the characters that `.` in a
JavaScript regular expression does not match. -/
def isLineTerminator (c : Char) : Bool :=
  c = Char.ofNat 10 || c = Char.ofNat 13 || c = Char.ofNat 0x2028 || c = Char.ofNat 0x2029

/-- Constant `DesktopStashEntryMarker` from stash.ts. -/
def DesktopStashEntryMarker : String := "!!GitHub_Desktop"

/-- The literal part `!!GitHub_Desktop<` of the regex
`desktopStashEntryMessageRe = /!!GitHub_Desktop<(.+)>$/`. -/
def markerChars : List Char := "!!GitHub_Desktop<".data

/-- One attempt of `desktopStashEntryMessageRe` at a fixed start position:
the literal marker must match here, then the greedy `(.+)` followed by `>`
must reach the end of the string.  Because `>` is the final element of the
pattern and the pattern is `$`-anchored, the capture is forced to be
everything strictly between the end of the marker and the final character,
which must be `>`; the capture must be non-empty and must contain no line
terminator (JavaScript `.` cannot match one). -/
def tryMatchAt (s : List Char) : Option (List Char) :=
  if markerChars.isPrefixOf s then
    let rest := s.drop markerChars.length
    let body := rest.dropLast
    if rest.getLast? = some '>' ∧ body.all (fun c => !isLineTerminator c) ∧ body ≠ [] then
      some body
    else
      none
  else
    none

/-- Model of `desktopStashEntryMessageRe.exec`: try the pattern at every start
position from the left and return the capture of the first success. -/
def execStashRe : List Char → Option (List Char)
  | [] => none
  | c :: cs =>
    match tryMatchAt (c :: cs) with
    | some b => some b
    | none => execStashRe cs

/-- Function `extractBranchFromMessage` from stash.ts: run the regex; return `none`
when there is no match or the captured group is empty, otherwise the
captured branch name. -/
def extractBranchFromMessage (message : String) : Option String :=
  match execStashRe message.data with
  | none => none
  | some cs => if cs.length = 0 then none else some (String.mk cs)

/-- Function `createDesktopStashMessage` from stash.ts. -/
def createDesktopStashMessage (branchName : String) : String :=
  DesktopStashEntryMarker ++ "<" ++ branchName ++ ">"

/-- Modelled from the spec: the lazily-loaded `fileChanges` payload of a
stash entry, one of NotLoaded / Loading / Loaded(changed files) /
LoadFailed (the `stash-entry` model module is outside the embedded source;
file identities are abstracted as strings). -/
inductive StashedFileChanges where
  | notLoaded
  | loading
  | loaded (files : List String)
  | loadFailed
deriving DecidableEq

/-- Structure `IStashEntry`: positional name, owning branch, stable commit hash and
the lazily-loaded file payload. -/
structure IStashEntry where
  name : String
  branchName : String
  stashSha : String
  files : StashedFileChanges
deriving DecidableEq

/-- Structure `StashResult` from stash.ts.  `stashEntryCount` is an `Int` because the
JavaScript expression `entries.length - 1` is exact signed arithmetic. -/
structure StashResult where
  desktopEntries : List IStashEntry
  stashEntryCount : Int
deriving DecidableEq

/-- Modelled from the spec: the repository model only supplies a
filesystem path. -/
structure Repository where
  path : String
deriving DecidableEq

/-- The result of one external git invocation. -/
structure GitResult where
  exitCode : Nat
  stdout : String
  stderr : String
deriving DecidableEq

/-- One recorded git invocation: argument vector and working directory. -/
structure GitCall where
  args : List String
  path : String
deriving DecidableEq

/-- A raised `GitError`, carrying the offending process result and the
command that produced it. -/
structure GitError where
  result : GitResult
  args : List String
deriving DecidableEq

/-- The external store as an oracle: given the history of calls issued so
far and the current call, it answers with a process result.  History
dependence lets the store mutate between calls, as the spec demands. -/
def GitEnv : Type := List GitCall → GitCall → GitResult

/-- The observable trace of an operation: git calls issued and log lines
emitted, in order. -/
structure Trace where
  calls : List GitCall
  logs : List String
deriving DecidableEq

/-- Modelled from the spec: the process-invocation collaborator
(`git`/`runCommand` in core.ts, outside the embedded source).  It records
the call, asks the oracle, and raises a tagged error carrying command and
output unless the observed exit code is in `successExitCodes`. -/
def git (env : GitEnv) (t : Trace) (args : List String) (path : String)
    (successExitCodes : List Nat) : Except GitError GitResult × Trace :=
  let c : GitCall := ⟨args, path⟩
  let r := env t.calls c
  let t' : Trace := ⟨t.calls ++ [c], t.logs⟩
  (if r.exitCode ∈ successExitCodes then .ok r else .error ⟨r, args⟩, t')

/-- Append a log line to a trace (`log.info`). -/
def logInfo (t : Trace) (s : String) : Trace :=
  ⟨t.calls, t.logs ++ [s]⟩

/-- JavaScript `str.split(sep)` for a single-character separator:
consecutive separators produce empty fields and the result always has one
more field than there are separators. -/
def splitOnChar (sep : Char) : List Char → List (List Char)
  | [] => [[]]
  | x :: xs =>
    match splitOnChar sep xs with
    | [] => [[]]
    | y :: ys => if x = sep then [] :: y :: ys else (x :: y) :: ys

/-- The field delimiter `\x1F` chosen in `getStashes`. -/
def delimiterChar : Char := Char.ofNat 0x1F

/-- The NUL record terminator produced by `git log -z`. -/
def nulChar : Char := Char.ofNat 0

/-- Expression `result.stdout.split('\0').filter(s => s !== '')` from `getStashes`:
the raw reflog records. -/
def rawRecords (stdout : String) : List String :=
  ((splitOnChar nulChar stdout.data).map String.mk).filter (fun s => s ≠ "")

/-- The per-record body of the `getStashes` loop: split the record on the
delimiter; keep it only if it has exactly three fields and its message
carries a Desktop marker with a branch name. -/
def parseEntry (entry : String) : Option IStashEntry :=
  match splitOnChar delimiterChar entry.data with
  | [n, sha, msg] =>
    match extractBranchFromMessage (String.mk msg) with
    | some b => some ⟨String.mk n, b, String.mk sha, .notLoaded⟩
    | none => none
  | _ => none

/-- The argument vector of the reflog walk in `getStashes`, with
`format = ['%gd', '%H', '%gs'].join('%x1F')`. -/
def getStashesArgs : List String :=
  ["log", "-g", "-z", "--pretty=%gd%x1F%H%x1F%gs", "refs/stash"]

/-- Function `getStashes` from stash.ts: run the reflog walk accepting exit codes
{0, 128}; exit code 128 (no stash ref) yields the empty result; otherwise
split stdout into raw records, parse each, and report
`entries.length - 1` as the total count. -/
def getStashes (env : GitEnv) (t : Trace) (repo : Repository) :
    Except GitError StashResult × Trace :=
  match git env t getStashesArgs repo.path [0, 128] with
  | (.error e, t') => (.error e, t')
  | (.ok r, t') =>
    if r.exitCode = 128 then
      (.ok ⟨[], 0⟩, t')
    else
      let entries := rawRecords r.stdout
      (.ok ⟨entries.filterMap parseEntry, (entries.length : Int) - 1⟩, t')

/-- Function `getLastDesktopStashEntryForBranch` from stash.ts: list, then return
the first Desktop entry whose branch name equals the argument (`find`,
with `undefined` collapsed to `null`). -/
def getLastDesktopStashEntryForBranch (env : GitEnv) (t : Trace)
    (repo : Repository) (branchName : String) :
    Except GitError (Option IStashEntry) × Trace :=
  match getStashes env t repo with
  | (.error e, t') => (.error e, t')
  | (.ok stash, t') =>
    (.ok (stash.desktopEntries.find? (fun s => s.branchName == branchName)), t')

/-- Function `getStashEntryMatchingSha` from stash.ts: list, then return the first
Desktop entry whose commit hash equals the argument. -/
def getStashEntryMatchingSha (env : GitEnv) (t : Trace) (repo : Repository)
    (sha : String) : Except GitError (Option IStashEntry) × Trace :=
  match getStashes env t repo with
  | (.error e, t') => (.error e, t')
  | (.ok stash, t') =>
    (.ok (stash.desktopEntries.find? (fun e => e.stashSha == sha)), t')

/-- Function `stageUntrackedFiles` from stash.ts: list untracked files
(NUL-terminated); when there are any, drop the trailing terminator, split
on NUL and `git add` them.  Default success exit code set of the
collaborator is {0} (modelled from the spec: `runCommand` raises unless
the exit code is accepted). -/
def stageUntrackedFiles (env : GitEnv) (t : Trace) (repo : Repository) :
    Except GitError Unit × Trace :=
  match git env t ["ls-files", "-z", "--others", "--exclude-standard"] repo.path [0] with
  | (.error e, t') => (.error e, t')
  | (.ok r, t') =>
    if r.stdout.length ≠ 0 then
      let untrackedFiles := (splitOnChar nulChar r.stdout.data.dropLast).map String.mk
      match git env t' ("add" :: untrackedFiles) repo.path [0] with
      | (.error e, t'') => (.error e, t'')
      | (.ok _, t'') => (.ok (), t'')
    else
      (.ok (), t')

/-- The model of `/^error: /m` applied to stderr in
`createDesktopStashEntry`: scan stderr for an occurrence of `error: ` that
is at the start of the string or directly preceded by a line terminator
(in JavaScript multiline mode `^` matches after every line terminator). -/
def hasErrorLineAux (atLineStart : Bool) : List Char → Bool
  | [] => false
  | c :: cs =>
    (atLineStart && "error: ".data.isPrefixOf (c :: cs)) ||
      hasErrorLineAux (isLineTerminator c) cs

/-- Model of `errorPrefixRe.exec(stderr) !== null` for `errorPrefixRe = /^error: /m`. -/
def hasErrorLine (s : String) : Bool := hasErrorLineAux true s.data

/-- The `['stash', 'push', '-m', message]` argument vector. -/
def createStashArgs (message : String) : List String :=
  ["stash", "push", "-m", message]

/-- The log line emitted by `createDesktopStashEntry` on the benign
exit-code-1 path. -/
def createStashLogMsg (r : GitResult) : String :=
  "[createDesktopStashEntry] a stash was created successfully but exit code " ++
    toString r.exitCode ++ " reported. stderr: " ++ r.stderr

/-- Function `createDesktopStashEntry` from stash.ts: stage untracked files, then
`git stash push -m <marker message>` accepting exit codes {0, 1}.  On exit
code 1, any stderr line starting with `error: ` is rethrown as a
`GitError`; otherwise the anomaly is logged and the call succeeds. -/
def createDesktopStashEntry (env : GitEnv) (t : Trace) (repo : Repository)
    (branchName : String) : Except GitError Bool × Trace :=
  match stageUntrackedFiles env t repo with
  | (.error e, t₁) => (.error e, t₁)
  | (.ok _, t₁) =>
    let message := createDesktopStashMessage branchName
    let args := createStashArgs message
    match git env t₁ args repo.path [0, 1] with
    | (.error e, t₂) => (.error e, t₂)
    | (.ok r, t₂) =>
      if r.exitCode = 1 then
        if hasErrorLine r.stderr then
          (.error ⟨r, args⟩, t₂)
        else
          (.ok true, logInfo t₂ (createStashLogMsg r))
      else
        (.ok true, t₂)

/-- Function `dropDesktopStashEntry` from stash.ts: resolve the hash to the current
positional name; when no Desktop entry matches, do nothing; otherwise run
`git stash drop <name>` (default success exit codes {0}). -/
def dropDesktopStashEntry (env : GitEnv) (t : Trace) (repo : Repository)
    (stashSha : String) : Except GitError Unit × Trace :=
  match getStashEntryMatchingSha env t repo stashSha with
  | (.error e, t₁) => (.error e, t₁)
  | (.ok none, t₁) => (.ok (), t₁)
  | (.ok (some entryToDelete), t₁) =>
    match git env t₁ ["stash", "drop", entryToDelete.name] repo.path [0] with
    | (.error e, t₂) => (.error e, t₂)
    | (.ok _, t₂) => (.ok (), t₂)

/-- The log line emitted by `popStashEntry` on the quirky exit-code-1,
empty-stderr path. -/
def popStashLogMsg (r : GitResult) : String :=
  "[popStashEntry] a stash was popped successfully but exit code " ++
    toString r.exitCode ++ " reported."

/-- Function `popStashEntry` from stash.ts: resolve the hash; when no Desktop entry
matches, do nothing.  Otherwise run `git stash pop --quiet <name>`
accepting exit codes {0, 1} (merge conflicts are pre-classified as an
expected error kind by the collaborator and do not alter control flow
here).  On exit code 1 with non-empty stderr the result is rethrown as a
`GitError`; on exit code 1 with empty stderr the quirk is logged and the
compensating `dropDesktopStashEntry` is invoked for the same hash. -/
def popStashEntry (env : GitEnv) (t : Trace) (repo : Repository)
    (stashSha : String) : Except GitError Unit × Trace :=
  match getStashEntryMatchingSha env t repo stashSha with
  | (.error e, t₁) => (.error e, t₁)
  | (.ok none, t₁) => (.ok (), t₁)
  | (.ok (some stashToPop), t₁) =>
    let args := ["stash", "pop", "--quiet", stashToPop.name]
    match git env t₁ args repo.path [0, 1] with
    | (.error e, t₂) => (.error e, t₂)
    | (.ok r, t₂) =>
      if r.exitCode = 1 then
        if 0 < r.stderr.length then
          (.error ⟨r, args⟩, t₂)
        else
          dropDesktopStashEntry env (logInfo t₂ (popStashLogMsg r)) repo stashSha
      else
        (.ok (), t₂)

/-! ## Concrete fixtures used by the witnesses -/

/-- A sample repository. -/
def repo0 : Repository := ⟨"/repo"⟩

/-- The empty starting trace. -/
def t0 : Trace := ⟨[], []⟩

/-- A reflog-walk output holding one Desktop-owned record: positional name
`stash@\x7b0\x7d`, hash `abc123`, marker message for branch `main`,
NUL-terminated, fields joined by the `\x1F` delimiter. -/
def sampleStdout : String :=
  "stash@\x7b0\x7d\x1Fabc123\x1F!!GitHub_Desktop<main>\x00"

/-- The entry parsed from `sampleStdout`. -/
def sampleEntry : IStashEntry :=
  ⟨"stash@\x7b0\x7d", "main", "abc123", .notLoaded⟩

/-- An oracle whose every call reports exit code 128 (no stash ref). -/
def envNoRef : GitEnv := fun _ _ => ⟨128, "", ""⟩

/-- An oracle whose every call succeeds with empty output (the reflog walk
yields zero raw records). -/
def envEmptyWalk : GitEnv := fun _ _ => ⟨0, "", ""⟩

/-- An oracle that answers reflog walks with `sampleStdout` and everything
else with silent success. -/
def envListOnly : GitEnv := fun _ c =>
  if c.args.head? = some "log" then ⟨0, sampleStdout, ""⟩ else ⟨0, "", ""⟩

/-- An oracle for the quirky pop: the walk lists `sampleEntry`,
`stash pop` reports exit code 1 with empty stderr, every other stash
subcommand succeeds. -/
def envPopQuirk : GitEnv := fun _ c =>
  if c.args.head? = some "stash" then
    if (c.args.drop 1).head? = some "pop" then ⟨1, "", ""⟩ else ⟨0, "", ""⟩
  else ⟨0, sampleStdout, ""⟩

/-- An oracle for the failing pop: the walk lists `sampleEntry` and
`stash pop` reports exit code 1 with a conflict message on stderr. -/
def envPopConflict : GitEnv := fun _ c =>
  if c.args.head? = some "stash" then ⟨1, "", "CONFLICT: merge conflict"⟩
  else ⟨0, sampleStdout, ""⟩

/-- An oracle for the benign create anomaly: `stash push` reports exit
code 1 with only a warning on stderr, everything else succeeds with empty
output. -/
def envCreateWarn : GitEnv := fun _ c =>
  if c.args.head? = some "stash" then ⟨1, "", "warning: no local changes"⟩
  else ⟨0, "", ""⟩

/-! ## Codec lemmas -/

theorem data_ne_nil (s : String) (h : s ≠ "") : s.data ≠ [] := by
  intro hd
  apply h
  cases s
  simp_all

theorem mk_data (s : String) : String.mk s.data = s := by
  cases s
  rfl

theorem getLast?_eq_dropLast_concat (l : List Char) (a : Char)
    (h : l.getLast? = some a) : l.dropLast ++ [a] = l := by
  have hne : l ≠ [] := by
    intro he
    subst he
    simp at h
  have h2 := List.dropLast_concat_getLast hne
  rw [List.getLast?_eq_getLast l hne, Option.some_inj] at h
  rw [h] at h2
  exact h2

theorem isPrefixOf_append_self (l r : List Char) : l.isPrefixOf (l ++ r) = true := by
  induction l with
  | nil => simp [List.isPrefixOf]
  | cons c cs ih => simp [List.isPrefixOf, ih]

theorem isPrefixOf_exists (l : List Char) : ∀ s : List Char,
    l.isPrefixOf s = true → ∃ tl, s = l ++ tl := by
  induction l with
  | nil => exact fun s _ => ⟨s, rfl⟩
  | cons c cs ih =>
    intro s h
    cases s with
    | nil => simp [List.isPrefixOf] at h
    | cons d ds =>
      simp only [List.isPrefixOf, Bool.and_eq_true, beq_iff_eq] at h
      obtain ⟨h1, h2⟩ := h
      obtain ⟨tl, htl⟩ := ih ds h2
      exact ⟨tl, by simp [h1, htl]⟩

theorem tryMatchAt_append (b : List Char) (hne : b ≠ [])
    (hall : b.all (fun c => !isLineTerminator c) = true) :
    tryMatchAt (markerChars ++ (b ++ ['>'])) = some b := by
  have hpre : markerChars.isPrefixOf (markerChars ++ (b ++ ['>'])) = true :=
    isPrefixOf_append_self markerChars (b ++ ['>'])
  simp only [tryMatchAt, hpre, if_true, List.drop_left, List.dropLast_concat,
    List.getLast?_concat]
  rw [if_pos]
  exact ⟨trivial, by simp [hall], hne⟩

theorem execStashRe_of_tryMatchAt (s b : List Char) (h : tryMatchAt s = some b) :
    execStashRe s = some b := by
  cases s with
  | nil => simp [tryMatchAt, markerChars] at h
  | cons c cs => simp [execStashRe, h]

theorem tryMatchAt_sound (s b : List Char) (h : tryMatchAt s = some b) :
    b ≠ [] ∧ (∀ c ∈ b, isLineTerminator c = false) ∧
      s = markerChars ++ (b ++ ['>']) := by
  unfold tryMatchAt at h
  by_cases hpre : markerChars.isPrefixOf s
  · simp only [hpre, if_true] at h
    split at h
    · next hcond =>
      obtain ⟨hlast, hall, hbne⟩ := hcond
      cases h
      obtain ⟨tl, htl⟩ := isPrefixOf_exists markerChars s hpre
      have hdrop : s.drop markerChars.length = tl := by
        rw [htl]
        exact List.drop_left _ _
      refine ⟨hbne, ?_, ?_⟩
      · intro c hc
        have := List.all_eq_true.mp hall c hc
        simpa using this
      · rw [hdrop] at hlast ⊢
        rw [htl]
        congr 1
        exact (getLast?_eq_dropLast_concat tl '>' hlast).symm
    · exact absurd h (by simp)
  · simp [hpre] at h

theorem execStashRe_sound (s : List Char) : ∀ b : List Char,
    execStashRe s = some b →
      b ≠ [] ∧ (∀ c ∈ b, isLineTerminator c = false) ∧
        ∃ pre, s = pre ++ (markerChars ++ (b ++ ['>'])) := by
  induction s with
  | nil =>
    intro b h
    simp [execStashRe] at h
  | cons c cs ih =>
    intro b h
    simp only [execStashRe] at h
    cases htm : tryMatchAt (c :: cs) with
    | some b' =>
      rw [htm] at h
      cases h
      obtain ⟨h1, h2, h3⟩ := tryMatchAt_sound _ _ htm
      exact ⟨h1, h2, [], by simpa using h3⟩
    | none =>
      rw [htm] at h
      obtain ⟨h1, h2, pre, hpre⟩ := ih b h
      exact ⟨h1, h2, c :: pre, by simp [hpre]⟩

theorem message_data (b : String) :
    (createDesktopStashMessage b).data = markerChars ++ (b.data ++ ['>']) := by
  have h : "!!GitHub_Desktop".data ++ "<".data = markerChars := by decide
  simp only [createDesktopStashMessage, DesktopStashEntryMarker, String.data_append]
  rw [List.append_assoc, List.append_assoc, ← List.append_assoc, h]

theorem roundtrip_core (b : String) (hne : b ≠ "")
    (hlt : ∀ c ∈ b.data, isLineTerminator c = false) :
    extractBranchFromMessage (createDesktopStashMessage b) = some b := by
  have hdne : b.data ≠ [] := data_ne_nil b hne
  have hall : b.data.all (fun c => !isLineTerminator c) = true :=
    List.all_eq_true.mpr (fun c hc => by simp [hlt c hc])
  have h2 : execStashRe (createDesktopStashMessage b).data = some b.data := by
    rw [message_data]
    exact execStashRe_of_tryMatchAt _ _ (tryMatchAt_append b.data hdne hall)
  simp only [extractBranchFromMessage, h2]
  rw [if_neg (fun h0 => hdne (List.length_eq_zero.mp h0)), mk_data]

example : rawRecords "" = [] := by decide

example :
    extractBranchFromMessage "!!GitHub_Desktop<main>" = some "main" := by decide

example : extractBranchFromMessage "!!GitHub_Desktop<>" = none := by decide

example : extractBranchFromMessage "random text" = none := by decide

example : extractBranchFromMessage "!!GitHub_Desktop<a>b>" = some "a>b" := by decide

/-! ## Claims about the entry codec -/

/-- Claim C4, counterexample: the branch name consisting of a single
newline is non-empty and contains no closing delimiter, yet it does not
round-trip, because JavaScript `.` cannot match a line terminator. -/
theorem roundtrip_fails_on_newline_branch :
    "\n" ≠ "" ∧ '>' ∉ "\n".data ∧
      extractBranchFromMessage (createDesktopStashMessage "\n") ≠ some "\n" := by
  decide

/-- Claim C4 (amended): for every non-empty branch name that contains
neither the closing delimiter character nor any line terminator, decoding
the encoded marker message yields the branch name back. -/
theorem roundtrip_no_delimiter_no_terminator (b : String) (hne : b ≠ "")
    (hgt : '>' ∉ b.data) (hlt : ∀ c ∈ b.data, isLineTerminator c = false) :
    extractBranchFromMessage (createDesktopStashMessage b) = some b :=
  roundtrip_core b hne hlt

/-- Witness for the amended claim C4 at the branch name `feature-x`. -/
theorem roundtrip_no_delimiter_no_terminator_witness :
    "feature-x" ≠ "" ∧ '>' ∉ "feature-x".data ∧
      (∀ c ∈ "feature-x".data, isLineTerminator c = false) ∧
      extractBranchFromMessage (createDesktopStashMessage "feature-x") =
        some "feature-x" :=
  ⟨by decide, by decide, by decide,
    roundtrip_no_delimiter_no_terminator "feature-x" (by decide) (by decide)
      (by decide)⟩

/-- Claim C10: because the capture of `desktopStashEntryMessageRe` is
greedy and the pattern is anchored only at the end of the message, the
round-trip holds for every non-empty branch name without a newline (line
terminator), including names that contain the closing delimiter. -/
theorem roundtrip_greedy_allows_delimiter (b : String) (hne : b ≠ "")
    (hlt : ∀ c ∈ b.data, isLineTerminator c = false) :
    extractBranchFromMessage (createDesktopStashMessage b) = some b :=
  roundtrip_core b hne hlt

/-- Witness for claim C10 at the branch name `a>b`, which contains the
closing delimiter. -/
theorem roundtrip_greedy_allows_delimiter_witness :
    "a>b" ≠ "" ∧ (∀ c ∈ "a>b".data, isLineTerminator c = false) ∧
      extractBranchFromMessage (createDesktopStashMessage "a>b") = some "a>b" :=
  ⟨by decide, by decide,
    roundtrip_greedy_allows_delimiter "a>b" (by decide) (by decide)⟩

/-- Claim C5: the decoder is a pure total function; whenever it returns a
branch name, the message matched the end-anchored marker pattern with a
non-empty captured branch (so it returns none on every non-matching
message and there is no match with an empty capture); in particular
`decode("random text")` and `decode(encode(""))` are both none. -/
theorem extractBranch_absent_characterization :
    (∀ msg b, extractBranchFromMessage msg = some b →
        b ≠ "" ∧ (∀ c ∈ b.data, isLineTerminator c = false) ∧
          ∃ pre, msg.data = pre ++ (markerChars ++ (b.data ++ ['>']))) ∧
      extractBranchFromMessage "random text" = none ∧
      extractBranchFromMessage (createDesktopStashMessage "") = none := by
  refine ⟨?_, by decide, by decide⟩
  intro msg b h
  unfold extractBranchFromMessage at h
  split at h
  · exact absurd h (by simp)
  · next cs he =>
    split at h
    · exact absurd h (by simp)
    · next hl =>
      have hb : String.mk cs = b := by injection h
      obtain ⟨h1, h2, pre, hp⟩ := execStashRe_sound msg.data cs he
      subst hb
      refine ⟨?_, ?_, pre, ?_⟩
      · exact fun h0 => h1 (congrArg String.data h0)
      · exact h2
      · exact hp

/-- Witness for claim C5: the characterization applied to the message
`!!GitHub_Desktop<main>`, whose decode is `main`. -/
theorem extractBranch_absent_characterization_witness :
    "main" ≠ "" ∧ (∀ c ∈ "main".data, isLineTerminator c = false) ∧
      ∃ pre, "!!GitHub_Desktop<main>".data =
        pre ++ (markerChars ++ ("main".data ++ ['>'])) :=
  extractBranch_absent_characterization.1 "!!GitHub_Desktop<main>" "main"
    (by decide)

/-! ## Operational lemmas -/

theorem git_trace (env : GitEnv) (t : Trace) (args : List String) (path : String)
    (codes : List Nat) (x : Except GitError GitResult) (t' : Trace)
    (h : git env t args path codes = (x, t')) :
    t' = ⟨t.calls ++ [⟨args, path⟩], t.logs⟩ :=
  (congrArg Prod.snd h).symm

theorem getStashes_trace (env : GitEnv) (t : Trace) (repo : Repository)
    (x : Except GitError StashResult) (t' : Trace)
    (h : getStashes env t repo = (x, t')) :
    t' = ⟨t.calls ++ [⟨getStashesArgs, repo.path⟩], t.logs⟩ := by
  unfold getStashes at h
  split at h
  · next e t'' heq =>
    cases h
    exact git_trace _ _ _ _ _ _ _ heq
  · next r t'' heq =>
    have ht := git_trace _ _ _ _ _ _ _ heq
    split at h <;> · cases h; exact ht

theorem find?_split {α : Type} (p : α → Bool) (l : List α) (a : α)
    (h : l.find? p = some a) :
    ∃ pre post, l = pre ++ a :: post ∧ p a = true ∧ ∀ x ∈ pre, p x = false := by
  induction l with
  | nil => simp [List.find?] at h
  | cons x xs ih =>
    by_cases hx : p x
    · rw [List.find?_cons_of_pos _ hx, Option.some_inj] at h
      subst h
      exact ⟨[], xs, rfl, hx, by simp⟩
    · rw [List.find?_cons_of_neg _ (by simpa using hx)] at h
      obtain ⟨pre, post, hl, hp, hpre⟩ := ih h
      refine ⟨x :: pre, post, by simp [hl], hp, ?_⟩
      intro y hy
      rcases List.mem_cons.mp hy with hy | hy
      · subst hy
        simpa using hx
      · exact hpre y hy

/-! ## Claims about the lister -/

/-- Claim C6: whenever the reflog walk reports exit code 128 (the
recognized no-such-ref code), `getStashes` returns the empty result — no
Desktop entries, total count zero — without raising. -/
theorem getStashes_noRef_returns_empty (env : GitEnv) (t : Trace)
    (repo : Repository) (r : GitResult)
    (hr : env t.calls ⟨getStashesArgs, repo.path⟩ = r)
    (h128 : r.exitCode = 128) :
    getStashes env t repo =
      (.ok ⟨[], 0⟩, ⟨t.calls ++ [⟨getStashesArgs, repo.path⟩], t.logs⟩) := by
  simp [getStashes, git, hr, h128]

/-- Witness for claim C6: an oracle that always reports exit code 128. -/
theorem getStashes_noRef_returns_empty_witness :
    getStashes envNoRef t0 repo0 =
      (.ok ⟨[], 0⟩, ⟨t0.calls ++ [⟨getStashesArgs, repo0.path⟩], t0.logs⟩) :=
  getStashes_noRef_returns_empty envNoRef t0 repo0 ⟨128, "", ""⟩ rfl rfl

/-- Claim C3: on a successful reflog walk (exit code 0), the reported
total count is exactly the number of raw records minus one. -/
theorem getStashes_count_is_raw_records_minus_one (env : GitEnv) (t : Trace)
    (repo : Repository) (r : GitResult)
    (hr : env t.calls ⟨getStashesArgs, repo.path⟩ = r)
    (h0 : r.exitCode = 0) :
    getStashes env t repo =
      (.ok ⟨(rawRecords r.stdout).filterMap parseEntry,
            ((rawRecords r.stdout).length : Int) - 1⟩,
       ⟨t.calls ++ [⟨getStashesArgs, repo.path⟩], t.logs⟩) := by
  simp [getStashes, git, hr, h0]

/-- Witness for claim C3: a walk with zero raw records reports total count
`0 - 1 = -1`, not `0`. -/
theorem getStashes_count_is_raw_records_minus_one_witness :
    getStashes envEmptyWalk t0 repo0 =
      (.ok ⟨[], -1⟩, ⟨t0.calls ++ [⟨getStashesArgs, repo0.path⟩], t0.logs⟩) :=
  (getStashes_count_is_raw_records_minus_one envEmptyWalk t0 repo0
    ⟨0, "", ""⟩ rfl rfl).trans (by rfl)

/-! ## Claims about the locator and drop -/

/-- Claim C9: `getLastDesktopStashEntryForBranch` returns exactly the
first entry of the listed Desktop-owned sequence whose branch name equals
the argument, and none when no listed entry matches. -/
theorem getLastStash_returns_first_branch_match (env : GitEnv) (t : Trace)
    (repo : Repository) (b : String) (res : StashResult) (t' : Trace)
    (h : getStashes env t repo = (.ok res, t')) :
    getLastDesktopStashEntryForBranch env t repo b =
      (.ok (res.desktopEntries.find? (fun e => e.branchName == b)), t') ∧
      ((res.desktopEntries.find? (fun e => e.branchName == b) = none ∧
          ∀ e ∈ res.desktopEntries, e.branchName ≠ b) ∨
        (∃ pre e post, res.desktopEntries = pre ++ e :: post ∧
          res.desktopEntries.find? (fun e => e.branchName == b) = some e ∧
          e.branchName = b ∧ ∀ e' ∈ pre, e'.branchName ≠ b)) := by
  refine ⟨by simp [getLastDesktopStashEntryForBranch, h], ?_⟩
  cases hf : res.desktopEntries.find? (fun e => e.branchName == b) with
  | none =>
    left
    refine ⟨rfl, ?_⟩
    intro e he hb
    have hne := List.find?_eq_none.mp hf e he
    simp [hb] at hne
  | some e =>
    right
    obtain ⟨pre, post, hl, hp, hpre⟩ := find?_split _ _ _ hf
    refine ⟨pre, e, post, hl, rfl, ?_, ?_⟩
    · have hp' := hp
      simp at hp'
      exact hp'
    · intro e' he' hb
      have hx := hpre e' he'
      simp [hb] at hx

/-- Witness for claim C9: on a listing holding exactly `sampleEntry`, the
lookup for branch `main` returns it as the first match. -/
theorem getLastStash_returns_first_branch_match_witness :
    getLastDesktopStashEntryForBranch envListOnly t0 repo0 "main" =
      (.ok ((⟨[sampleEntry], 0⟩ : StashResult).desktopEntries.find?
        (fun e => e.branchName == "main")),
       ⟨[⟨getStashesArgs, repo0.path⟩], []⟩) ∧
      (((⟨[sampleEntry], 0⟩ : StashResult).desktopEntries.find?
          (fun e => e.branchName == "main") = none ∧
        ∀ e ∈ (⟨[sampleEntry], 0⟩ : StashResult).desktopEntries,
          e.branchName ≠ "main") ∨
      (∃ pre e post,
        (⟨[sampleEntry], 0⟩ : StashResult).desktopEntries = pre ++ e :: post ∧
        (⟨[sampleEntry], 0⟩ : StashResult).desktopEntries.find?
          (fun e => e.branchName == "main") = some e ∧
        e.branchName = "main" ∧ ∀ e' ∈ pre, e'.branchName ≠ "main")) :=
  getLastStash_returns_first_branch_match envListOnly t0 repo0 "main"
    ⟨[sampleEntry], 0⟩ ⟨[⟨getStashesArgs, repo0.path⟩], []⟩ (by rfl)

/-- Claim C7: when no Desktop-owned entry matches the hash,
`dropDesktopStashEntry` succeeds silently and the only command issued is
the listing itself — no `stash drop` is run. -/
theorem dropStash_missing_entry_noop (env : GitEnv) (t : Trace)
    (repo : Repository) (sha : String) (res : StashResult) (t₁ : Trace)
    (h : getStashes env t repo = (.ok res, t₁))
    (hnone : res.desktopEntries.find? (fun e => e.stashSha == sha) = none) :
    dropDesktopStashEntry env t repo sha = (.ok (), t₁) ∧
      t₁ = ⟨t.calls ++ [⟨getStashesArgs, repo.path⟩], t.logs⟩ := by
  have hsha : getStashEntryMatchingSha env t repo sha = (.ok none, t₁) := by
    simp [getStashEntryMatchingSha, h, hnone]
  exact ⟨by simp [dropDesktopStashEntry, hsha], getStashes_trace _ _ _ _ _ h⟩

/-- Witness for claim C7: dropping an absent hash against a listing that
holds only `sampleEntry` is a silent no-op. -/
theorem dropStash_missing_entry_noop_witness :
    dropDesktopStashEntry envListOnly t0 repo0 "deadbeef" =
      (.ok (), ⟨[⟨getStashesArgs, repo0.path⟩], []⟩) ∧
      (⟨[⟨getStashesArgs, repo0.path⟩], []⟩ : Trace) =
        ⟨t0.calls ++ [⟨getStashesArgs, repo0.path⟩], t0.logs⟩ :=
  dropStash_missing_entry_noop envListOnly t0 repo0 "deadbeef"
    ⟨[sampleEntry], 0⟩ ⟨[⟨getStashesArgs, repo0.path⟩], []⟩ (by rfl) (by rfl)

/-! ## Claims about the mutator -/

/-- Claim C8: `createDesktopStashEntry` accepts stash-push exit codes
{0, 1}; on exit code 1 it raises a `GitError` carrying the command and
output exactly when stderr holds a line beginning with `error: `, and
otherwise logs the anomaly and returns the success signal; any other
non-zero exit code raises. -/
theorem createStash_exit_code_policy (env : GitEnv) (t : Trace)
    (repo : Repository) (b : String) (t₁ : Trace) (r : GitResult)
    (hstage : stageUntrackedFiles env t repo = (.ok (), t₁))
    (hr : env t₁.calls ⟨createStashArgs (createDesktopStashMessage b), repo.path⟩ = r) :
    createDesktopStashEntry env t repo b =
      (let args := createStashArgs (createDesktopStashMessage b)
       let t₂ : Trace := ⟨t₁.calls ++ [⟨args, repo.path⟩], t₁.logs⟩
       if r.exitCode = 0 then (.ok true, t₂)
       else if r.exitCode = 1 then
         if hasErrorLine r.stderr then (.error ⟨r, args⟩, t₂)
         else (.ok true, logInfo t₂ (createStashLogMsg r))
       else (.error ⟨r, args⟩, t₂)) := by
  by_cases h0 : r.exitCode = 0
  · simp [createDesktopStashEntry, hstage, git, hr, h0]
  · by_cases h1 : r.exitCode = 1
    · by_cases he : hasErrorLine r.stderr
      · simp [createDesktopStashEntry, hstage, git, hr, h0, h1, he]
      · simp [createDesktopStashEntry, hstage, git, hr, h0, h1, he]
    · simp [createDesktopStashEntry, hstage, git, hr, h0, h1]

/-- Witness for claim C8: a push that exits 1 with only a warning on
stderr is logged and reported as success. -/
theorem createStash_exit_code_policy_witness :
    createDesktopStashEntry envCreateWarn t0 repo0 "feature" =
      (.ok true,
       ⟨[⟨["ls-files", "-z", "--others", "--exclude-standard"], repo0.path⟩,
         ⟨createStashArgs (createDesktopStashMessage "feature"), repo0.path⟩],
        [createStashLogMsg ⟨1, "", "warning: no local changes"⟩]⟩) :=
  (createStash_exit_code_policy envCreateWarn t0 repo0 "feature"
    ⟨[⟨["ls-files", "-z", "--others", "--exclude-standard"], repo0.path⟩], []⟩
    ⟨1, "", "warning: no local changes"⟩ (by rfl) (by rfl)).trans (by rfl)

/-- Claim C1: when the located entry's pop reports exit code 1 with empty
stderr, `popStashEntry` logs the quirk and then behaves exactly as the
compensating `dropDesktopStashEntry` for the same hash. -/
theorem popStash_exit1_empty_stderr_compensating_drop (env : GitEnv)
    (t : Trace) (repo : Repository) (sha : String) (e : IStashEntry)
    (t₁ : Trace) (r : GitResult)
    (hloc : getStashEntryMatchingSha env t repo sha = (.ok (some e), t₁))
    (hr : env t₁.calls ⟨["stash", "pop", "--quiet", e.name], repo.path⟩ = r)
    (h1 : r.exitCode = 1) (hs : r.stderr = "") :
    popStashEntry env t repo sha =
      dropDesktopStashEntry env
        (logInfo ⟨t₁.calls ++ [⟨["stash", "pop", "--quiet", e.name], repo.path⟩],
                  t₁.logs⟩
          (popStashLogMsg r)) repo sha := by
  simp [popStashEntry, hloc, git, hr, h1, hs]

/-- Witness for claim C1: a quirky pop of `sampleEntry` continues as the
compensating drop of the same hash. -/
theorem popStash_exit1_empty_stderr_compensating_drop_witness :
    popStashEntry envPopQuirk t0 repo0 "abc123" =
      dropDesktopStashEntry envPopQuirk
        (logInfo ⟨[⟨getStashesArgs, repo0.path⟩,
                   ⟨["stash", "pop", "--quiet", sampleEntry.name], repo0.path⟩],
                  []⟩
          (popStashLogMsg ⟨1, "", ""⟩)) repo0 "abc123" := by
  have h := popStash_exit1_empty_stderr_compensating_drop envPopQuirk t0 repo0
    "abc123" sampleEntry ⟨[⟨getStashesArgs, repo0.path⟩], []⟩ ⟨1, "", ""⟩
    (by rfl) (by rfl) rfl rfl
  simpa using h

/-- Claim C2: when the located entry's pop reports exit code 1 with
non-empty stderr, `popStashEntry` raises a `GitError` carrying the command
and output, and issues no further command — in particular no drop. -/
theorem popStash_exit1_nonempty_stderr_raises (env : GitEnv) (t : Trace)
    (repo : Repository) (sha : String) (e : IStashEntry) (t₁ : Trace)
    (r : GitResult)
    (hloc : getStashEntryMatchingSha env t repo sha = (.ok (some e), t₁))
    (hr : env t₁.calls ⟨["stash", "pop", "--quiet", e.name], repo.path⟩ = r)
    (h1 : r.exitCode = 1) (hs : r.stderr ≠ "") :
    popStashEntry env t repo sha =
      (.error ⟨r, ["stash", "pop", "--quiet", e.name]⟩,
       ⟨t₁.calls ++ [⟨["stash", "pop", "--quiet", e.name], repo.path⟩],
        t₁.logs⟩) := by
  have hlen : 0 < r.stderr.length :=
    List.length_pos.mpr (data_ne_nil r.stderr hs)
  simp [popStashEntry, hloc, git, hr, h1, hlen]

/-- Witness for claim C2: a pop of `sampleEntry` that reports a conflict on
stderr raises and issues no drop. -/
theorem popStash_exit1_nonempty_stderr_raises_witness :
    popStashEntry envPopConflict t0 repo0 "abc123" =
      (.error ⟨⟨1, "", "CONFLICT: merge conflict"⟩,
               ["stash", "pop", "--quiet", sampleEntry.name]⟩,
       ⟨[⟨getStashesArgs, repo0.path⟩,
         ⟨["stash", "pop", "--quiet", sampleEntry.name], repo0.path⟩],
        []⟩) := by
  have h := popStash_exit1_nonempty_stderr_raises envPopConflict t0 repo0
    "abc123" sampleEntry ⟨[⟨getStashesArgs, repo0.path⟩], []⟩
    ⟨1, "", "CONFLICT: merge conflict"⟩ (by rfl) (by rfl) rfl (by decide)
  simpa using h
